import Mathlib

/-!
Shallow embedding of `src/jwt/jws.py` (python-jws): JWS compact signing and
verification.  Messages, keys and signatures are byte lists (`List Nat`, each
entry `< 256` where it matters).  External cryptographic primitives (hashlib,
hmac, PyCrypto, ecdsa) are out of scope per the spec and are modelled as an
abstract `ExternalCrypto` bundle; the `utils` module (base64url and JSON
encoding) is repository code not under `src/` and is modelled from the spec.
-/

namespace PyJws

/-- Error kinds raised by `src/jwt/jws.py` and the libraries it calls.
`notImplementedError` is the code's `UnsupportedAlgorithm` condition;
`typeError`, `keyFormatError`, `attributeError` and `externError` model
Python-level exceptions escaping from outside the module's own taxonomy. -/
inductive JwsError
  | decodeError
  | invalidHeaderError
  | signatureError
  | missingAlgorithmError
  | notImplementedError
  | typeError
  | keyFormatError
  | attributeError
  | externError
  deriving DecidableEq

/-- The three algorithm families of `jws.py`: classes `HMAC`, `RSA`, `ECDSA`. -/
inductive Family
  | HMAC
  | RSA
  | ECDSA
  deriving DecidableEq

/-- Named curves of the `ecdsa` package used by `ECDSA.bits_to_curve`. -/
inductive Curve
  | NIST256p
  | NIST384p
  | NIST521p
  deriving DecidableEq

/-- `SigningAlgorithm.supported_bits`, per class: the base tuple
`(256, 384, 512)` is inherited by `HMAC` and `ECDSA`; `RSA` overrides it
with `(256,)`. -/
def supported_bits : Family → List Nat
  | .HMAC => [256, 384, 512]
  | .RSA => [256]
  | .ECDSA => [256, 384, 512]

/-- A constructed algorithm instance: family plus accepted bit depth
(`self.bits`); its hasher is `sha<bits>` (`SigningAlgorithm.__init__`). -/
structure Algorithm where
  family : Family
  bits : Nat
  deriving DecidableEq

/-- `SigningAlgorithm.__init__`: accepts the bit depth when it is in the
class's `supported_bits`.  On an unsupported depth the source intends
`raise NotImplementedError(...)`, but evaluating the message first runs
`', '.join(self.supported_bits)` on a tuple of ints, which raises
`TypeError` before the intended exception is constructed. -/
def mkAlgorithm (fam : Family) (bits : Nat) : Except JwsError Algorithm :=
  if bits ∈ supported_bits fam then .ok ⟨fam, bits⟩
  else .error .typeError

/-- `ECDSA.bits_to_curve`: dict from bit depth to curve name (note 512 maps
to NIST521p). -/
def bits_to_curve : Nat → Option Curve
  | 256 => some .NIST256p
  | 384 => some .NIST384p
  | 512 => some .NIST521p
  | _ => none

/-- ASCII codes of the base64url alphabet `A-Z a-z 0-9 - _`, in value order. -/
def b64Alphabet : List Nat :=
  ((List.range 26).map (· + 65)) ++ ((List.range 26).map (· + 97)) ++
    ((List.range 10).map (· + 48)) ++ [45, 95]

/-- Character (ASCII code) for a 6-bit value. -/
def b64Char (n : Nat) : Nat := b64Alphabet.getD n 65

/-- 6-bit value of a character; `none` when the character is outside the
base64url alphabet. -/
def b64Index (c : Nat) : Option Nat := b64Alphabet.findIdx? (fun x => x == c)

/-- Modelled from the spec: `utils.base64url_encode` (module `utils` is not
under `src/`).  Base64url without padding: each 3-byte group becomes 4
characters; a trailing group of 1 or 2 bytes becomes 2 or 3 characters. -/
def base64url_encode : List Nat → List Nat
  | [] => []
  | [a] => [b64Char (a / 4), b64Char (a % 4 * 16)]
  | [a, b] => [b64Char (a / 4), b64Char (a % 4 * 16 + b / 16), b64Char (b % 16 * 4)]
  | a :: b :: c :: rest =>
      b64Char (a / 4) :: b64Char (a % 4 * 16 + b / 16) ::
        b64Char (b % 16 * 4 + c / 64) :: b64Char (c % 64) :: base64url_encode rest

/-- Modelled from the spec: `utils.base64url_decode` (module `utils` is not
under `src/`).  Inverse of `base64url_encode`; `none` (the `DecodeError`
condition) on a character outside the alphabet or an impossible length
(1 mod 4). -/
def base64url_decode : List Nat → Option (List Nat)
  | [] => some []
  | [_] => none
  | [c1, c2] => do
      let a ← b64Index c1
      let b ← b64Index c2
      some [a * 4 + b / 16]
  | [c1, c2, c3] => do
      let a ← b64Index c1
      let b ← b64Index c2
      let c ← b64Index c3
      some [a * 4 + b / 16, b % 16 * 16 + c / 4]
  | c1 :: c2 :: c3 :: c4 :: rest => do
      let a ← b64Index c1
      let b ← b64Index c2
      let c ← b64Index c3
      let d ← b64Index c4
      let tail ← base64url_decode rest
      some ([a * 4 + b / 16, b % 16 * 16 + c / 4, c % 4 * 64 + d] ++ tail)

/-- A byte list: every entry below 256. -/
def IsBytes (l : List Nat) : Prop := ∀ b ∈ l, b < 256

instance (l : List Nat) : Decidable (IsBytes l) := by
  unfold IsBytes; infer_instance

/-- Headers and payloads as passed to the `JWS` class: ordered string-keyed
mappings (Python dicts). -/
abbrev JMap := List (String × String)

/-- Python `key in dict` / `dict[key]`: first binding for the key. -/
def jmapGet (k : String) : JMap → Option String
  | [] => none
  | (k', v) :: rest => if k' = k then some v else jmapGet k rest

/-- Modelled from the spec: the JSON-serialization step of `utils.encode`
(module `utils` is not under `src/`; the spec treats JSON mechanics as an
external primitive and only requires a deterministic canonical
serialization).  Serializes an ordered string map as
`{"k":"v",...}` in ASCII bytes. -/
def jsonEncode (m : JMap) : List Nat :=
  let strB : String → List Nat :=
    fun s => [34] ++ s.toList.map (fun c => c.toNat % 256) ++ [34]
  [123] ++ List.intercalate [44] (m.map (fun kv => strB kv.1 ++ [58] ++ strB kv.2)) ++ [125]

/-- Modelled from the spec: `utils.encode` = json-serialize then
base64url-encode (the source docstring of `signing_input` describes it as
"json + base64url encoding"). -/
def utilsEncode (m : JMap) : List Nat := base64url_encode (jsonEncode m)

/-- The external cryptographic libraries the module imports (`hmac`/`hashlib`,
`Crypto` for RSA, `ecdsa`), bundled abstractly: the spec places their
internals out of scope, so the development is parametric in them.
`hmacDigest bits key msg` is `hmac.new(key, msg, sha<bits>).digest()`;
`rsaImportKey` is `Crypto.PublicKey.RSA.importKey` (`.error` = the library
exception on unparsable key material); `pkcsSign`/`pkcsVerify` are
PKCS#1 v1.5 over SHA-256 (the hash the source hard-wires);
`esKeyFromString curve s` / `evKeyFromString curve s` are
`ecdsa.SigningKey.from_string` / `ecdsa.VerifyingKey.from_string`;
`esSign hashBits sk msg` is `sk.sign(msg, hashfunc=sha<hashBits>)` and
`evVerify hashBits vk sig msg` is `vk.verify(sig, msg, hashfunc=...)`
returning `false` exactly when the library raises `BadSignatureError`. -/
structure ExternalCrypto where
  RKey : Type
  ESKey : Type
  EVKey : Type
  hmacDigest : Nat → List Nat → List Nat → List Nat
  rsaImportKey : List Nat → Except Unit RKey
  pkcsSign : RKey → List Nat → List Nat
  pkcsVerify : RKey → List Nat → List Nat → Bool
  esKeyFromString : Curve → List Nat → Except Unit ESKey
  evKeyFromString : Curve → List Nat → Except Unit EVKey
  esSign : Nat → ESKey → List Nat → List Nat
  evVerify : Nat → EVKey → List Nat → List Nat → Bool

/-- A key argument as passed through `JWS.sign`/`JWS.verify` (`*args`):
either a Python string (raw bytes / text), a pre-parsed
`Crypto.PublicKey.RSA._RSAobj`, or a pre-parsed `ecdsa.VerifyingKey`. -/
inductive KeyArg (C : ExternalCrypto)
  | str (bytes : List Nat)
  | rsaObj (k : C.RKey)
  | esVKey (k : C.EVKey)

/-- Key resolution in `RSA.verify`: use the key directly when it is an
`RSA._RSAobj`, else `RSA.importKey(key)`; an import failure escapes as the
library's exception (`keyFormatError`), and `importKey` of a non-string
object fails with some other library error (`externError`; outside the
modelled key domain). -/
def rsaResolveKey (C : ExternalCrypto) (key : KeyArg C) : Except JwsError C.RKey :=
  match key with
  | .rsaObj rk => .ok rk
  | .str s =>
      match C.rsaImportKey s with
      | .ok rk => .ok rk
      | .error _ => .error .keyFormatError
  | .esVKey _ => .error .externError

/-- Key resolution in `ECDSA.verify`: use the key directly when it is an
`ecdsa.VerifyingKey`, else `VerifyingKey.from_string(key, curve=curve)`;
a parse failure escapes as the library's exception (`keyFormatError`), and
`from_string` of a non-string object fails with some other library error
(`externError`; outside the modelled key domain). -/
def ecdsaResolveKey (C : ExternalCrypto) (curve : Curve) (key : KeyArg C) :
    Except JwsError C.EVKey :=
  match key with
  | .esVKey vk => .ok vk
  | .str s =>
      match C.evKeyFromString curve s with
      | .ok vk => .ok vk
      | .error _ => .error .keyFormatError
  | .rsaObj _ => .error .externError

/-- Dispatch of `<algorithm>.sign(msg, key)` per family.
`HMAC.sign`: `hmac.new(unicode(key).encode('utf8'), msg, self.hasher)`
(the key is modelled as its UTF-8 bytes; `unicode()` of a non-string key
object is library-level behavior outside the modelled key domain).
`RSA.sign`: `PKCS.sign(SHA256(msg), RSA.importKey(key))` — SHA-256
regardless of bits.  `ECDSA.sign`:
`SigningKey.from_string(key, curve=bits_to_curve[bits]).sign(msg,
hashfunc=sha<bits>)`; a `bits` outside the curve dict would raise `KeyError`
(unreachable for constructed algorithms). -/
def Algorithm.signOp (C : ExternalCrypto) (a : Algorithm) (msg : List Nat)
    (key : KeyArg C) : Except JwsError (List Nat) :=
  match a.family with
  | .HMAC =>
      match key with
      | .str k => .ok (C.hmacDigest a.bits k msg)
      | _ => .error .externError
  | .RSA =>
      match key with
      | .str s =>
          match C.rsaImportKey s with
          | .ok rk => .ok (C.pkcsSign rk msg)
          | .error _ => .error .keyFormatError
      | _ => .error .externError
  | .ECDSA =>
      match bits_to_curve a.bits with
      | none => .error .externError
      | some curve =>
          match key with
          | .str s =>
              match C.esKeyFromString curve s with
              | .ok sk => .ok (C.esSign a.bits sk msg)
              | .error _ => .error .keyFormatError
          | _ => .error .externError

/-- Dispatch of `<algorithm>.verify(msg, crypto, key)` per family.
`HMAC.verify`: recompute `self.sign(msg, key)` and compare with `==`;
mismatch raises `SignatureError`.  `RSA.verify`: resolve the key
(`isinstance` check / `importKey`), then `PKCS.verify`; a false result
raises `SignatureError`.  `ECDSA.verify`: resolve the key, then
`vk.verify(crypto, msg, hashfunc=...)`; the library's
`BadSignatureError` is caught and re-raised as `SignatureError`. -/
def Algorithm.verifyOp (C : ExternalCrypto) (a : Algorithm) (msg crypto : List Nat)
    (key : KeyArg C) : Except JwsError Bool :=
  match a.family with
  | .HMAC =>
      match a.signOp C msg key with
      | .ok d => if d = crypto then .ok true else .error .signatureError
      | .error e => .error e
  | .RSA =>
      match rsaResolveKey C key with
      | .error e => .error e
      | .ok rk => if C.pkcsVerify rk msg crypto then .ok true else .error .signatureError
  | .ECDSA =>
      match bits_to_curve a.bits with
      | none => .error .externError
      | some curve =>
          match ecdsaResolveKey C curve key with
          | .error e => .error e
          | .ok vk =>
              if C.evVerify a.bits vk crypto msg then .ok true
              else .error .signatureError

/-- The `JWS` instance state: `self.__header` and `self.__payload` are unset
until `set_header`/`set_payload` assign them (accessing them unset raises
`AttributeError`); `self.__algorithm` starts as `None`. -/
structure JWS where
  header : Option JMap
  payload : Option JMap
  algorithm : Option Algorithm
  deriving DecidableEq

/-- A freshly constructed `JWS()` (the falsy defaults `header={}`,
`payload={}` skip both setter calls in `__init__`). -/
def JWS.empty : JWS := ⟨none, none, none⟩

/-- The string matched by Python's `$` anchor when `re.match` is given
`^...$`: the whole string, or all but a single trailing `'\n'` (Python's
`$` also matches just before a newline that ends the string). -/
def pyDollarBody (s : String) : List Char :=
  let cs := s.toList
  if cs.getLast? = some '\n' then cs.dropLast else cs

/-- The text comparison performed by `re.match(r'^<pfx>(256|384|512)$', ·)`
once the `$`-anchored body of the subject is known: an exact match against
one of the three alternatives, returning the captured bit-depth group. -/
def reMatchBitsB (pfx : List Char) (body : List Char) : Option Nat :=
  if body = pfx ++ ['2', '5', '6'] then some 256
  else if body = pfx ++ ['3', '8', '4'] then some 384
  else if body = pfx ++ ['5', '1', '2'] then some 512
  else none

/-- `re.match(r'^<pfx>(256|384|512)$', algo)`: full-string match (modulo the
trailing-newline tolerance of `$`), returning the captured bit-depth group. -/
def reMatchBits (pfx : List Char) (algo : String) : Option Nat :=
  reMatchBitsB pfx (pyDollarBody algo)

/-- One iteration body of the `set_algorithm` loop: on a regex match,
`self.__algorithm = cls(match.groups()[0])`; the constructor is evaluated
first, so when it raises the attribute keeps its old value. -/
def JWS.applyAlgorithm (ctx : JWS) (fam : Family) (bits : Nat) :
    JWS × Option JwsError :=
  match mkAlgorithm fam bits with
  | .ok a => ({ ctx with algorithm := some a }, none)
  | .error e => (ctx, some e)

/-- `JWS.set_algorithm`: try the three `(regex, cls)` pairs in order
(`^HS(256|384|512)$` → `HMAC`, `^RS...$` → `RSA`, `^ES...$` → `ECDSA`); on
no match raise `NotImplementedError` ("Could not find algorithm defined
for %s").  Returns the post-call state and the raised error, if any. -/
def JWS.set_algorithm (ctx : JWS) (algo : String) : JWS × Option JwsError :=
  match reMatchBits ['H', 'S'] algo with
  | some bits => ctx.applyAlgorithm .HMAC bits
  | none =>
      match reMatchBits ['R', 'S'] algo with
      | some bits => ctx.applyAlgorithm .RSA bits
      | none =>
          match reMatchBits ['E', 'S'] algo with
          | some bits => ctx.applyAlgorithm .ECDSA bits
          | none => (ctx, some .notImplementedError)

/-- `set_algorithm` as a function of the `$`-anchored body of its argument:
`set_algorithm` only inspects `algo` through `pyDollarBody`, so the two
agree definitionally (`JWS.set_algorithm ctx s =
JWS.setAlgorithmBody ctx (pyDollarBody s)`). -/
def JWS.setAlgorithmBody (ctx : JWS) (body : List Char) : JWS × Option JwsError :=
  match reMatchBitsB ['H', 'S'] body with
  | some bits => ctx.applyAlgorithm .HMAC bits
  | none =>
      match reMatchBitsB ['R', 'S'] body with
      | some bits => ctx.applyAlgorithm .RSA bits
      | none =>
          match reMatchBitsB ['E', 'S'] body with
          | some bits => ctx.applyAlgorithm .ECDSA bits
          | none => (ctx, some .notImplementedError)

/-- `JWS.set_header`: raise `InvalidHeaderError` when `'alg'` is not a key of
the header; otherwise run `set_algorithm(header['alg'])` and, only when it
succeeded, assign `self.__header = header`. -/
def JWS.set_header (ctx : JWS) (header : JMap) : JWS × Option JwsError :=
  match jmapGet "alg" header with
  | none => (ctx, some .invalidHeaderError)
  | some alg =>
      match ctx.set_algorithm alg with
      | (ctx2, some e) => (ctx2, some e)
      | (ctx2, none) => ({ ctx2 with header := some header }, none)

/-- `JWS.set_payload`: store the payload. -/
def JWS.set_payload (ctx : JWS) (p : JMap) : JWS :=
  { ctx with payload := some p }

/-- `JWS.signing_input`: `"%s.%s" % (utils.encode(self.__header),
utils.encode(self.__payload))` — recomputed from the currently stored header
and payload on every call; byte 46 is `'.'`.  Accessing an unset attribute
raises `AttributeError`. -/
def JWS.signing_input (ctx : JWS) : Except JwsError (List Nat) :=
  match ctx.header, ctx.payload with
  | some h, some p => .ok (utilsEncode h ++ [46] ++ utilsEncode p)
  | _, _ => .error .attributeError

/-- `JWS.sign`: raise `MissingAlgorithmError` when no algorithm is set;
otherwise base64url-encode `self.__algorithm.sign(self.signing_input(), key)`. -/
def JWS.sign (C : ExternalCrypto) (ctx : JWS) (key : KeyArg C) :
    Except JwsError (List Nat) :=
  match ctx.algorithm with
  | none => .error .missingAlgorithmError
  | some a =>
      match ctx.signing_input with
      | .error e => .error e
      | .ok msg =>
          match a.signOp C msg key with
          | .error e => .error e
          | .ok crypto => .ok (base64url_encode crypto)

/-- `JWS.verify`: raise `MissingAlgorithmError` when no algorithm is set;
otherwise `crypto = utils.base64url_decode(crypto_output)` (malformed input
raises `DecodeError` here, before the signing input is built or any
cryptographic check runs), then
`self.__algorithm.verify(self.signing_input(), crypto, key)`. -/
def JWS.verify (C : ExternalCrypto) (ctx : JWS) (crypto_output : List Nat)
    (key : KeyArg C) : Except JwsError Bool :=
  match ctx.algorithm with
  | none => .error .missingAlgorithmError
  | some a =>
      match base64url_decode crypto_output with
      | none => .error .decodeError
      | some crypto =>
          match ctx.signing_input with
          | .error e => .error e
          | .ok msg => a.verifyOp C msg crypto key

/-- The contract of the external primitives for a matched signing/verifying
key pair of one algorithm family — exactly what the spec assumes of the
out-of-scope crypto libraries: a signature produced with the signing key
verifies under the verifying key, and produced signatures are byte strings.
For HMAC the two keys are the same string and no library assumption beyond
the digest being bytes is needed. -/
def RoundtripKeys (C : ExternalCrypto) (a : Algorithm) (skey vkey : KeyArg C) : Prop :=
  match a.family with
  | .HMAC =>
      ∃ k, skey = .str k ∧ vkey = .str k ∧ ∀ msg, IsBytes (C.hmacDigest a.bits k msg)
  | .RSA =>
      ∃ s sk vk, skey = .str s ∧ C.rsaImportKey s = .ok sk ∧
        rsaResolveKey C vkey = .ok vk ∧
        ∀ msg, C.pkcsVerify vk msg (C.pkcsSign sk msg) = true ∧
          IsBytes (C.pkcsSign sk msg)
  | .ECDSA =>
      ∃ curve, bits_to_curve a.bits = some curve ∧
        ∃ s sk vk, skey = .str s ∧ C.esKeyFromString curve s = .ok sk ∧
          ecdsaResolveKey C curve vkey = .ok vk ∧
          ∀ msg, C.evVerify a.bits vk (C.esSign a.bits sk msg) msg = true ∧
            IsBytes (C.esSign a.bits sk msg)

/-- The seven identifiers whose resolution constructs an algorithm:
all nine of `{HS,RS,ES}{256,384,512}` except RS384 and RS512, whose
construction fails in `SigningAlgorithm.__init__`. -/
def supportedIds : List String :=
  ["HS256", "HS384", "HS512", "RS256", "ES256", "ES384", "ES512"]

/-- The two pattern-matched identifiers whose construction fails
(`RSA.supported_bits = (256,)`). -/
def crippledIds : List String := ["RS384", "RS512"]

/-- All nine identifiers matched by the three registry patterns. -/
def allNineIds : List String :=
  ["HS256", "HS384", "HS512", "RS256", "RS384", "RS512", "ES256", "ES384", "ES512"]

/-- A concrete instantiation of the external libraries, used to evaluate the
theorems below on concrete inputs. -/
def tinyCrypto : ExternalCrypto where
  RKey := Unit
  ESKey := Unit
  EVKey := Unit
  hmacDigest := fun _ _ _ => [7, 200]
  rsaImportKey := fun _ => .ok ()
  pkcsSign := fun _ _ => [1]
  pkcsVerify := fun _ _ _ => true
  esKeyFromString := fun _ _ => .ok ()
  evKeyFromString := fun _ _ => .ok ()
  esSign := fun _ _ _ => [2]
  evVerify := fun _ _ _ _ => true

/-- A concrete configured context: header `{"alg": "HS256"}`, payload
`{"sub": "1234"}` (the spec's scenario). -/
def ctx1 : JWS :=
  (JWS.empty.set_header [("alg", "HS256")]).fst.set_payload [("sub", "1234")]

/-- `b64Index` inverts `b64Char` on 6-bit values. -/
theorem b64_inv : ∀ n < 64, b64Index (b64Char n) = some n := by decide

/-- Base64url decoding inverts encoding on byte lists. -/
theorem b64_roundtrip : ∀ (l : List Nat), IsBytes l →
    base64url_decode (base64url_encode l) = some l
  | [], _ => by simp [base64url_encode, base64url_decode]
  | [a], h => by
      have ha : a < 256 := h a (by simp)
      have h1 := b64_inv (a / 4) (by omega)
      have h2 := b64_inv (a % 4 * 16) (by omega)
      simp [base64url_encode, base64url_decode, h1, h2]
      omega
  | [a, b], h => by
      have ha : a < 256 := h a (by simp)
      have hb : b < 256 := h b (by simp)
      have h1 := b64_inv (a / 4) (by omega)
      have h2 := b64_inv (a % 4 * 16 + b / 16) (by omega)
      have h3 := b64_inv (b % 16 * 4) (by omega)
      simp [base64url_encode, base64url_decode, h1, h2, h3]
      constructor <;> omega
  | [a, b, c], h => by
      have ha : a < 256 := h a (by simp)
      have hb : b < 256 := h b (by simp)
      have hc : c < 256 := h c (by simp)
      have h1 := b64_inv (a / 4) (by omega)
      have h2 := b64_inv (a % 4 * 16 + b / 16) (by omega)
      have h3 := b64_inv (b % 16 * 4 + c / 64) (by omega)
      have h4 := b64_inv (c % 64) (by omega)
      simp [base64url_encode, base64url_decode, h1, h2, h3, h4]
      refine ⟨by omega, by omega, by omega⟩
  | a :: b :: c :: d :: rest, h => by
      have ha : a < 256 := h a (by simp)
      have hb : b < 256 := h b (by simp)
      have hc : c < 256 := h c (by simp)
      have ih := b64_roundtrip (d :: rest) (fun x hx => h x (by simp at hx ⊢; tauto))
      have h1 := b64_inv (a / 4) (by omega)
      have h2 := b64_inv (a % 4 * 16 + b / 16) (by omega)
      have h3 := b64_inv (b % 16 * 4 + c / 64) (by omega)
      have h4 := b64_inv (c % 64) (by omega)
      simp [base64url_encode, base64url_decode, h1, h2, h3, h4, ih]
      refine ⟨by omega, by omega, by omega⟩

/-- A failed `set_algorithm` call leaves the context unchanged: the attribute
assignment only happens after the constructor succeeded. -/
theorem set_algorithm_fail_keeps_state (ctx : JWS) (s : String) (e : JwsError)
    (hfail : (ctx.set_algorithm s).snd = some e) : (ctx.set_algorithm s).fst = ctx := by
  unfold JWS.set_algorithm JWS.applyAlgorithm at hfail ⊢
  cases hH : reMatchBits ['H', 'S'] s with
  | some b =>
      cases hm : mkAlgorithm Family.HMAC b with
      | ok a => simp [hH, hm] at hfail
      | error e2 => simp [hH, hm]
  | none =>
      cases hR : reMatchBits ['R', 'S'] s with
      | some b =>
          cases hm : mkAlgorithm Family.RSA b with
          | ok a => simp [hH, hR, hm] at hfail
          | error e2 => simp [hH, hR, hm]
      | none =>
          cases hE : reMatchBits ['E', 'S'] s with
          | some b =>
              cases hm : mkAlgorithm Family.ECDSA b with
              | ok a => simp [hH, hR, hE, hm] at hfail
              | error e2 => simp [hH, hR, hE, hm]
          | none => simp [hH, hR, hE]

/-- C4: HMAC signing is the deterministic digest of the message under the
key, and HMAC verification succeeds exactly when the recomputed signature
equals the candidate byte-for-byte, raising `SignatureError` otherwise. -/
theorem hmac_sign_verify_spec (C : ExternalCrypto) (bits : Nat) (msg crypto k : List Nat) :
    Algorithm.signOp C ⟨.HMAC, bits⟩ msg (.str k) = .ok (C.hmacDigest bits k msg)
    ∧ Algorithm.verifyOp C ⟨.HMAC, bits⟩ msg crypto (.str k) =
        (if C.hmacDigest bits k msg = crypto then .ok true
         else .error .signatureError) := by
  exact ⟨rfl, by simp [Algorithm.verifyOp, Algorithm.signOp]⟩

/-- C6: with no algorithm resolved, both `sign` and `verify` raise
`MissingAlgorithmError`; in particular `sign` returns no signature. -/
theorem missing_algorithm_rejects_sign_verify (C : ExternalCrypto) (ctx : JWS)
    (halg : ctx.algorithm = none) (key : KeyArg C) (sigStr : List Nat) :
    ctx.sign C key = .error .missingAlgorithmError
    ∧ ctx.verify C sigStr key = .error .missingAlgorithmError := by
  constructor <;> simp [JWS.sign, JWS.verify, halg]

/-- Witness for C6 on a freshly constructed context. -/
theorem missing_algorithm_rejects_sign_verify_witness :
    JWS.empty.sign tinyCrypto (.str []) = .error .missingAlgorithmError
    ∧ JWS.empty.verify tinyCrypto [] (.str []) = .error .missingAlgorithmError :=
  missing_algorithm_rejects_sign_verify tinyCrypto JWS.empty rfl (.str []) []

/-- C9: on a context with a resolved algorithm, `verify` raises
`DecodeError` on an encoded signature that is not valid base64url, whatever
the key and the external libraries — the cryptographic check never runs. -/
theorem verify_malformed_b64_decode_error (C : ExternalCrypto) (ctx : JWS)
    (a : Algorithm) (halg : ctx.algorithm = some a) (s : List Nat)
    (hbad : base64url_decode s = none) (key : KeyArg C) :
    ctx.verify C s key = .error .decodeError := by
  simp [JWS.verify, halg, hbad]

/-- Witness for C9: byte 33 (`'!'`) is outside the base64url alphabet. -/
theorem verify_malformed_b64_decode_error_witness :
    ctx1.verify tinyCrypto [33] (.str [9]) = .error .decodeError :=
  verify_malformed_b64_decode_error tinyCrypto ctx1 ⟨.HMAC, 256⟩ (by decide)
    [33] (by decide) (.str [9])

/-- C3: the code contradicts its own `raise NotImplementedError` intent:
resolving RS384 or RS512 passes the registry pattern, but
`SigningAlgorithm.__init__` crashes with `TypeError` while formatting the
error message (`', '.join` over the int tuple `(256,)`), so the caller sees
an unrelated runtime error rather than the unsupported-algorithm failure. -/
theorem rsa_384_512_raise_typeError :
    JWS.empty.set_algorithm "RS384" = (JWS.empty, some .typeError)
    ∧ JWS.empty.set_algorithm "RS512" = (JWS.empty, some .typeError)
    ∧ JWS.empty.set_header [("alg", "RS384")] = (JWS.empty, some .typeError) := by
  refine ⟨by decide, by decide, by decide⟩

/-- Counterexample to C2 as stated: `"HS256\n"` is not one of the nine
identifiers, yet resolution succeeds — Python's `$` anchor also matches just
before a trailing newline, so `set_header` accepts it and resolves HMAC-256. -/
theorem resolution_trailing_newline_accepted :
    (JWS.empty.set_header [("alg", "HS256\n")]).snd = none
    ∧ (JWS.empty.set_header [("alg", "HS256\n")]).fst.algorithm = some ⟨.HMAC, 256⟩
    ∧ "HS256\n" ∉ allNineIds := by
  refine ⟨by decide, by decide, by decide⟩

/-- C7: `set_header` on a header without an `'alg'` key fails with
`InvalidHeaderError` and changes nothing; on a header whose `alg` is
`"HS256"` it succeeds, storing the header and resolving HMAC-256. -/
theorem set_header_alg_validation (ctx : JWS) (h1 h2 : JMap)
    (hmiss : jmapGet "alg" h1 = none) (hhs : jmapGet "alg" h2 = some "HS256") :
    ctx.set_header h1 = (ctx, some .invalidHeaderError)
    ∧ ctx.set_header h2 =
        ({ ctx with header := some h2, algorithm := some ⟨.HMAC, 256⟩ }, none) := by
  constructor
  · unfold JWS.set_header
    rw [hmiss]
  · unfold JWS.set_header
    rw [hhs]
    rfl

/-- Witness for C7 on concrete headers. -/
theorem set_header_alg_validation_witness :
    JWS.empty.set_header [("typ", "JWT")] = (JWS.empty, some .invalidHeaderError)
    ∧ JWS.empty.set_header [("alg", "HS256")] =
        ({ JWS.empty with header := some [("alg", "HS256")],
                          algorithm := some ⟨.HMAC, 256⟩ }, none) :=
  set_header_alg_validation JWS.empty [("typ", "JWT")] [("alg", "HS256")]
    (by decide) (by decide)

/-- C10: `set_header` is atomic on failure: whenever it raises (missing
`'alg'` key or failed algorithm resolution), the stored header, payload and
resolved algorithm are exactly what they were before the call, so the
context signs and verifies exactly as before. -/
theorem set_header_atomic_on_failure (ctx : JWS) (h : JMap) (e : JwsError)
    (hfail : (ctx.set_header h).snd = some e) :
    (ctx.set_header h).fst = ctx
    ∧ ∀ (C : ExternalCrypto) (key : KeyArg C) (s : List Nat),
        (ctx.set_header h).fst.sign C key = ctx.sign C key
        ∧ (ctx.set_header h).fst.verify C s key = ctx.verify C s key := by
  have hstate : (ctx.set_header h).fst = ctx := by
    unfold JWS.set_header at hfail ⊢
    cases hget : jmapGet "alg" h with
    | none => simp [hget]
    | some alg =>
        rw [hget] at hfail
        rcases hsa : ctx.set_algorithm alg with ⟨ctx2, oe⟩
        cases oe with
        | none => simp [hsa] at hfail
        | some e' =>
            have h2 := set_algorithm_fail_keeps_state ctx alg e' (by rw [hsa])
            rw [hsa] at h2
            simp [hget, hsa, h2]
  exact ⟨hstate, fun C key s => by rw [hstate]; exact ⟨rfl, rfl⟩⟩

/-- Witness for C10: a failing `set_header` (alg `"RS384"`) on a configured
context leaves it intact. -/
theorem set_header_atomic_on_failure_witness :
    (ctx1.set_header [("alg", "RS384")]).fst = ctx1
    ∧ ∀ (C : ExternalCrypto) (key : KeyArg C) (s : List Nat),
        (ctx1.set_header [("alg", "RS384")]).fst.sign C key = ctx1.sign C key
        ∧ (ctx1.set_header [("alg", "RS384")]).fst.verify C s key = ctx1.verify C s key :=
  set_header_atomic_on_failure ctx1 [("alg", "RS384")] .typeError (by decide)

/-- C2 (amended): algorithm resolution succeeds exactly when the string,
after Python's `$` anchor strips at most one trailing newline, is one of the
seven working identifiers (the nine of `{HS,RS,ES}{256,384,512}` minus
RS384/RS512); a string whose body is RS384 or RS512 fails with `TypeError`
(see C3); any other string fails with `NotImplementedError` (the
`UnsupportedAlgorithm` condition), and `set_header` surfaces the resolution
error unchanged rather than wrapping it as `InvalidHeaderError`. -/
theorem set_algorithm_characterization (ctx : JWS) (s : String) :
    ((ctx.set_algorithm s).snd = none ↔ pyDollarBody s ∈ supportedIds.map String.toList)
    ∧ (pyDollarBody s ∈ crippledIds.map String.toList →
        (ctx.set_algorithm s).snd = some .typeError)
    ∧ (pyDollarBody s ∉ allNineIds.map String.toList →
        (ctx.set_algorithm s).snd = some .notImplementedError)
    ∧ (∀ h, jmapGet "alg" h = some s →
        (ctx.set_header h).snd = (ctx.set_algorithm s).snd) := by
  have h4 : ∀ h, jmapGet "alg" h = some s →
      (ctx.set_header h).snd = (ctx.set_algorithm s).snd := by
    intro h hget
    unfold JWS.set_header
    rw [hget]
    rcases hsa : ctx.set_algorithm s with ⟨ctx2, oe⟩
    simp only [hsa]
    cases oe <;> simp
  have hmain :
      ((ctx.setAlgorithmBody (pyDollarBody s)).snd = none ↔
        pyDollarBody s ∈ supportedIds.map String.toList)
      ∧ (pyDollarBody s ∈ crippledIds.map String.toList →
          (ctx.setAlgorithmBody (pyDollarBody s)).snd = some .typeError)
      ∧ (pyDollarBody s ∉ allNineIds.map String.toList →
          (ctx.setAlgorithmBody (pyDollarBody s)).snd = some .notImplementedError) := by
    set b := pyDollarBody s with hb
    by_cases h1 : b = ['H', 'S', '2', '5', '6']
    · have hv : (ctx.setAlgorithmBody ['H', 'S', '2', '5', '6']).snd = none := rfl
      rw [h1, hv]
      decide
    by_cases h2 : b = ['H', 'S', '3', '8', '4']
    · have hv : (ctx.setAlgorithmBody ['H', 'S', '3', '8', '4']).snd = none := rfl
      rw [h2, hv]
      decide
    by_cases h3 : b = ['H', 'S', '5', '1', '2']
    · have hv : (ctx.setAlgorithmBody ['H', 'S', '5', '1', '2']).snd = none := rfl
      rw [h3, hv]
      decide
    by_cases h5 : b = ['R', 'S', '2', '5', '6']
    · have hv : (ctx.setAlgorithmBody ['R', 'S', '2', '5', '6']).snd = none := rfl
      rw [h5, hv]
      decide
    by_cases h6 : b = ['R', 'S', '3', '8', '4']
    · have hv : (ctx.setAlgorithmBody ['R', 'S', '3', '8', '4']).snd = some .typeError := rfl
      rw [h6, hv]
      decide
    by_cases h7 : b = ['R', 'S', '5', '1', '2']
    · have hv : (ctx.setAlgorithmBody ['R', 'S', '5', '1', '2']).snd = some .typeError := rfl
      rw [h7, hv]
      decide
    by_cases h8 : b = ['E', 'S', '2', '5', '6']
    · have hv : (ctx.setAlgorithmBody ['E', 'S', '2', '5', '6']).snd = none := rfl
      rw [h8, hv]
      decide
    by_cases h9 : b = ['E', 'S', '3', '8', '4']
    · have hv : (ctx.setAlgorithmBody ['E', 'S', '3', '8', '4']).snd = none := rfl
      rw [h9, hv]
      decide
    by_cases h10 : b = ['E', 'S', '5', '1', '2']
    · have hv : (ctx.setAlgorithmBody ['E', 'S', '5', '1', '2']).snd = none := rfl
      rw [h10, hv]
      decide
    have e1 : "HS256".toList = ['H', 'S', '2', '5', '6'] := by decide
    have e2 : "HS384".toList = ['H', 'S', '3', '8', '4'] := by decide
    have e3 : "HS512".toList = ['H', 'S', '5', '1', '2'] := by decide
    have e4 : "RS256".toList = ['R', 'S', '2', '5', '6'] := by decide
    have e5 : "RS384".toList = ['R', 'S', '3', '8', '4'] := by decide
    have e6 : "RS512".toList = ['R', 'S', '5', '1', '2'] := by decide
    have e7 : "ES256".toList = ['E', 'S', '2', '5', '6'] := by decide
    have e8 : "ES384".toList = ['E', 'S', '3', '8', '4'] := by decide
    have e9 : "ES512".toList = ['E', 'S', '5', '1', '2'] := by decide
    have hv : (ctx.setAlgorithmBody b).snd = some .notImplementedError := by
      simp [JWS.setAlgorithmBody, reMatchBitsB, h1, h2, h3, h5, h6, h7, h8, h9, h10]
    simp [hv, supportedIds, crippledIds, allNineIds,
      e1, e2, e3, e4, e5, e6, e7, e8, e9, h1, h2, h3, h5, h6, h7, h8, h9, h10]
  exact ⟨hmain.1, hmain.2.1, hmain.2.2, h4⟩

/-- Witness for C2 (amended): `"XX256"` matches no pattern and fails with
`NotImplementedError`. -/
theorem set_algorithm_characterization_witness :
    (JWS.empty.set_algorithm "XX256").snd = some .notImplementedError :=
  (set_algorithm_characterization JWS.empty "XX256").2.2.1 (by decide)

/-- A `set_algorithm` call, successful or not, leaves the stored header and
payload untouched (it only ever assigns `self.__algorithm`). -/
theorem set_algorithm_preserves_header_payload (ctx : JWS) (s : String) :
    (ctx.set_algorithm s).fst.header = ctx.header
    ∧ (ctx.set_algorithm s).fst.payload = ctx.payload := by
  unfold JWS.set_algorithm JWS.applyAlgorithm
  cases hH : reMatchBits ['H', 'S'] s with
  | some b => cases hm : mkAlgorithm Family.HMAC b <;> simp [hH, hm]
  | none =>
      cases hR : reMatchBits ['R', 'S'] s with
      | some b => cases hm : mkAlgorithm Family.RSA b <;> simp [hH, hR, hm]
      | none =>
          cases hE : reMatchBits ['E', 'S'] s with
          | some b => cases hm : mkAlgorithm Family.ECDSA b <;> simp [hH, hR, hE, hm]
          | none => simp [hH, hR, hE]

/-- After a successful `set_header h`, the stored header is `h` and the
stored payload is unchanged. -/
theorem set_header_success_state (ctx : JWS) (h : JMap)
    (hok : (ctx.set_header h).snd = none) :
    (ctx.set_header h).fst.header = some h
    ∧ (ctx.set_header h).fst.payload = ctx.payload := by
  unfold JWS.set_header at hok ⊢
  cases hget : jmapGet "alg" h with
  | none => rw [hget] at hok; simp at hok
  | some alg =>
      rw [hget] at hok
      rcases hsa : ctx.set_algorithm alg with ⟨ctx2, oe⟩
      cases oe with
      | some e => simp [hsa] at hok
      | none =>
          have hp2 := set_algorithm_preserves_header_payload ctx alg
          rw [hsa] at hp2
          simp [hget, hsa]
          exact hp2.2

/-- C5: the signing input is exactly
`base64url(encode(header)) ++ "." ++ base64url(encode(payload))`, recomputed
from the currently stored header and payload on every call (a later
`set_payload` or successful `set_header` changes it accordingly), and `sign`
returns the base64url encoding of the raw signature bytes the algorithm
produced over that input. -/
theorem signing_input_fresh_and_sign_encoding (ctx : JWS) (h p : JMap)
    (hh : ctx.header = some h) (hp : ctx.payload = some p) :
    ctx.signing_input =
      .ok (base64url_encode (jsonEncode h) ++ [46] ++ base64url_encode (jsonEncode p))
    ∧ (∀ p', (ctx.set_payload p').signing_input =
        .ok (base64url_encode (jsonEncode h) ++ [46] ++ base64url_encode (jsonEncode p')))
    ∧ (∀ h', (ctx.set_header h').snd = none →
        (ctx.set_header h').fst.signing_input =
          .ok (base64url_encode (jsonEncode h') ++ [46] ++ base64url_encode (jsonEncode p)))
    ∧ (∀ (C : ExternalCrypto) (a : Algorithm) (key : KeyArg C) (crypto : List Nat),
        ctx.algorithm = some a →
        a.signOp C (base64url_encode (jsonEncode h) ++ [46] ++ base64url_encode (jsonEncode p))
            key = .ok crypto →
        ctx.sign C key = .ok (base64url_encode crypto)) := by
  have hsi : ctx.signing_input =
      .ok (base64url_encode (jsonEncode h) ++ [46] ++ base64url_encode (jsonEncode p)) := by
    simp [JWS.signing_input, hh, hp, utilsEncode]
  refine ⟨hsi, ?_, ?_, ?_⟩
  · intro p'
    simp [JWS.set_payload, JWS.signing_input, hh, utilsEncode]
  · intro h' hok
    have hs := set_header_success_state ctx h' hok
    simp [JWS.signing_input, hs.1, hs.2, hp, utilsEncode]
  · intro C a key crypto halg hsign
    simp only [JWS.sign, halg, hsi, hsign]

/-- Witness for C5 on the configured context `ctx1`. -/
theorem signing_input_fresh_and_sign_encoding_witness :
    ctx1.signing_input =
      .ok (base64url_encode (jsonEncode [("alg", "HS256")]) ++ [46] ++
        base64url_encode (jsonEncode [("sub", "1234")])) :=
  (signing_input_fresh_and_sign_encoding ctx1 [("alg", "HS256")] [("sub", "1234")]
    (by decide) (by decide)).1

/-- C8: for the ECDSA variant the bit depth selects the curve
(256 → NIST256p, 384 → NIST384p, 512 → NIST521p) and the matching SHA-2
hash (the `hashBits` argument of the library calls), for both sign and
verify; a bad signature under a well-formed key is reported as
`SignatureError`, while a malformed raw key is reported as the distinct
`keyFormatError` kind. -/
theorem ecdsa_curve_hash_dispatch_and_errors (C : ExternalCrypto) (bits : Nat)
    (curve : Curve) (hcurve : bits_to_curve bits = some curve) (msg crypto : List Nat) :
    (bits_to_curve 256 = some .NIST256p ∧ bits_to_curve 384 = some .NIST384p ∧
      bits_to_curve 512 = some .NIST521p)
    ∧ (∀ s sk, C.esKeyFromString curve s = .ok sk →
        Algorithm.signOp C ⟨.ECDSA, bits⟩ msg (.str s) = .ok (C.esSign bits sk msg))
    ∧ (∀ vk, C.evVerify bits vk crypto msg = false →
        Algorithm.verifyOp C ⟨.ECDSA, bits⟩ msg crypto (.esVKey vk) = .error .signatureError)
    ∧ (∀ s, C.evKeyFromString curve s = .error () →
        Algorithm.verifyOp C ⟨.ECDSA, bits⟩ msg crypto (.str s) = .error .keyFormatError)
    ∧ JwsError.keyFormatError ≠ JwsError.signatureError := by
  refine ⟨⟨rfl, rfl, rfl⟩, ?_, ?_, ?_, by decide⟩
  · intro s sk hs
    simp [Algorithm.signOp, hcurve, hs]
  · intro vk hv
    simp [Algorithm.verifyOp, hcurve, ecdsaResolveKey, hv]
  · intro s hs
    simp [Algorithm.verifyOp, hcurve, ecdsaResolveKey, hs]

/-- Witness for C8 at bit depth 512 (curve NIST521p). -/
theorem ecdsa_curve_hash_dispatch_and_errors_witness :
    bits_to_curve 256 = some Curve.NIST256p ∧ bits_to_curve 384 = some Curve.NIST384p ∧
      bits_to_curve 512 = some Curve.NIST521p :=
  (ecdsa_curve_hash_dispatch_and_errors tinyCrypto 512 .NIST521p (by decide) [] []).1

/-- C1: for every supported (family, bit-depth) pair — every algorithm the
registry can construct — on a context with a valid header, payload and that
algorithm, signing with a key and verifying the produced signature with the
matching key succeeds, assuming only the documented contract of the external
crypto primitives (`RoundtripKeys`; for HMAC no cryptographic assumption
beyond digests being bytes is needed). -/
theorem sign_then_verify_succeeds (C : ExternalCrypto) (ctx : JWS) (a : Algorithm)
    (h p : JMap) (skey vkey : KeyArg C)
    (halg : ctx.algorithm = some a) (hh : ctx.header = some h)
    (hp : ctx.payload = some p) (hkeys : RoundtripKeys C a skey vkey) :
    ∃ sig, ctx.sign C skey = .ok sig ∧ ctx.verify C sig vkey = .ok true := by
  obtain ⟨fam, bits⟩ := a
  have hsi : ctx.signing_input = .ok (utilsEncode h ++ [46] ++ utilsEncode p) := by
    simp [JWS.signing_input, hh, hp]
  cases fam with
  | HMAC =>
      obtain ⟨k, hsk, hvk, hbytes⟩ := hkeys
      subst hsk
      subst hvk
      refine ⟨base64url_encode (C.hmacDigest bits k (utilsEncode h ++ [46] ++ utilsEncode p)),
        ?_, ?_⟩
      · simp [JWS.sign, halg, hsi, Algorithm.signOp]
      · simp [JWS.verify, halg, hsi, Algorithm.verifyOp, Algorithm.signOp,
          b64_roundtrip _ (hbytes _)]
  | RSA =>
      obtain ⟨s, sk, vk, hsk, himp, hres, hgood⟩ := hkeys
      subst hsk
      refine ⟨base64url_encode (C.pkcsSign sk (utilsEncode h ++ [46] ++ utilsEncode p)),
        ?_, ?_⟩
      · simp [JWS.sign, halg, hsi, Algorithm.signOp, himp]
      · have hv := (hgood (utilsEncode h ++ [46] ++ utilsEncode p)).1
        have hb := (hgood (utilsEncode h ++ [46] ++ utilsEncode p)).2
        simp only [JWS.verify, halg, hsi, Algorithm.verifyOp, hres,
          b64_roundtrip _ hb, hv]
        simp
  | ECDSA =>
      obtain ⟨curve, hcurve, s, sk, vk, hsk, hfrom, hres, hgood⟩ := hkeys
      subst hsk
      refine ⟨base64url_encode (C.esSign bits sk (utilsEncode h ++ [46] ++ utilsEncode p)),
        ?_, ?_⟩
      · simp [JWS.sign, halg, hsi, Algorithm.signOp, hcurve, hfrom]
      · have hv := (hgood (utilsEncode h ++ [46] ++ utilsEncode p)).1
        have hb := (hgood (utilsEncode h ++ [46] ++ utilsEncode p)).2
        dsimp only at hv hb hcurve
        simp only [JWS.verify, halg, hsi, Algorithm.verifyOp, hcurve, hres,
          b64_roundtrip _ hb, hv]
        simp

/-- Witness for C1: HMAC-256 on the configured context `ctx1`. -/
theorem sign_then_verify_succeeds_witness :
    ∃ sig, ctx1.sign tinyCrypto (.str [9]) = .ok sig
      ∧ ctx1.verify tinyCrypto sig (.str [9]) = .ok true :=
  sign_then_verify_succeeds tinyCrypto ctx1 ⟨.HMAC, 256⟩ [("alg", "HS256")]
    [("sub", "1234")] (.str [9]) (.str [9]) (by decide) (by decide) (by decide)
    ⟨[9], rfl, rfl, fun _ => by
      show IsBytes [7, 200]
      decide⟩

end PyJws
